import Mathlib

/-!
Verification of the image compressor/cropper library.

Shallow embedding of the repository's JavaScript sources:
  - src/src/util.js          : getImageDimensions, hasMinDimension
  - src/src/compressImage.js : compressImage (the size-budget compressor) and its helpers
  - src/src/cropImage.js     : cropImage (the modular cover-crop)
  - src/unnamed/part_002     : the bundled build, whose cropImage is the orchestrator
                               (no-op branch, "already fits" branch, PostCrop compression)

Modelling conventions:
  - JavaScript numbers are embedded as exact rationals; byte sizes and pixel
    dimensions are naturals. Comparisons against a possibly-undefined value
    follow JS semantics: any relational comparison with undefined is false
    (undefined converts to NaN). These are the jsLeN / jsLtQ / jsGtQ / jsLeQ helpers.
  - A File is a name, a declared media type, a byte list, and a lastModified stamp.
  - The browser environment (image decoding and canvas encoding) is an explicit
    oracle Env: probe gives the decoded natural dimensions of a file (none = the
    decode fails), enc gives the blob produced by canvas.toBlob for a canvas
    drawn from a given file at a given media type and quality. Pixel contents
    are abstracted; only the data of the resulting blob matters to the claims.
    canvas.toBlob on a canvas with a zero dimension yields null (HTML spec),
    which the library's reject-on-null wrapper turns into an error; the wrapper
    used by cropImage models that. Decoded dimensions are assumed positive,
    matching real decoders, so the rational division-by-zero convention is
    never exercised on a code path a claim depends on.
  - The compression loop is embedded with explicit fuel; the fuel supplied by
    compressImageE is the exact iteration bound of the search, and the
    fuel-independence theorem for the loop shows the loop terminates on its own
    (the guard fails) within that bound whenever the step is positive.
-/

/-- One JS error value. unsupportedMediaType stands for the thrown
Error('Only image files are supported'); decodeError for a rejected image load
inside getImageDimensions or compressImage; imageLoadError for the
reject('Image load error') in cropImage; canvasToBlobFailed for the
reject('Canvas toBlob failed') of the null-checking canvasToBlob wrapper. -/
inductive JsErr where
  | unsupportedMediaType
  | decodeError
  | imageLoadError
  | canvasToBlobFailed
deriving DecidableEq, Repr

/-- A browser File: display name, declared media type, raw bytes, lastModified. -/
structure JSFile where
  name : String
  type : String
  data : List Nat
  lastModified : Nat
deriving DecidableEq, Repr

deriving instance DecidableEq for Except

/-- file.size is the byte length of its contents. -/
def JSFile.size (f : JSFile) : Nat := f.data.length

/-- A Blob produced by canvas.toBlob: raw bytes plus a media type. -/
structure Blob where
  data : List Nat
  type : String
deriving DecidableEq, Repr

/-- blob.size is the byte length of its contents. -/
def Blob.size (b : Blob) : Nat := b.data.length

/-- The browser environment the library runs against. probe f is the decoded
pixel dimensions of file f (none when decoding fails); enc f t q is the blob
canvas.toBlob produces for a canvas drawn from f, at media type t and optional
quality q. -/
structure Env where
  probe : JSFile → Option (Nat × Nat)
  enc : JSFile → String → Option ℚ → Blob

/-- JS s.startsWith(p): p is a prefix of s. -/
def jsStartsWith (s p : String) : Bool :=
  s.toList.take p.toList.length == p.toList

/-- JS x <= y where y may be undefined: any comparison with undefined is false. -/
def jsLeN (x : Nat) : Option Nat → Bool
  | none => false
  | some y => x ≤ y

/-- JS x < y on numbers where y may be undefined. -/
def jsLtQ (x : ℚ) : Option ℚ → Bool
  | none => false
  | some y => x < y

/-- JS x <= y on numbers where y may be undefined. -/
def jsLeQ (x : ℚ) : Option ℚ → Bool
  | none => false
  | some y => x ≤ y

/-- JS x > y on numbers where y may be undefined. -/
def jsGtQ (x : ℚ) : Option ℚ → Bool
  | none => false
  | some y => y < x

/-- JS truthiness of a possibly-undefined number: undefined and 0 are falsy. -/
def truthyN : Option Nat → Bool
  | none => false
  | some n => n ≠ 0

/-- JS truthiness of a possibly-undefined rational: undefined and 0 are falsy. -/
def truthyQ : Option ℚ → Bool
  | none => false
  | some q => q ≠ 0

/-- Substring containment on character lists (JS String.prototype.includes /
an anchorless literal regex test). -/
def hasSubstr : List Char → List Char → Bool
  | [], pat => pat.isEmpty
  | c :: rest, pat => ((c :: rest).take pat.length == pat) || hasSubstr rest pat

/-- JS s.replace(pat, rep) for a plain string pattern: replace the first
occurrence only, leave the string unchanged when the pattern does not occur. -/
def replaceFirst (pat rep : List Char) : List Char → List Char
  | [] => if pat.isEmpty then rep else []
  | c :: rest =>
    if (c :: rest).take pat.length == pat then rep ++ (c :: rest).drop pat.length
    else c :: replaceFirst pat rep rest

/-- The test /png|gif/i.test(t): t contains png or gif case-insensitively. -/
def pngGifTest (t : String) : Bool :=
  let l := t.toList.map Char.toLower
  hasSubstr l "png".toList || hasSubstr l "gif".toList

/-- JS s.split('/')[1], with the missing-slash and empty cases collapsed to []
(the callers in this library only ever pass media types of the form image/x,
where the second segment is exactly the subtype). -/
def secondSegment (l : List Char) : List Char :=
  ((l.dropWhile (· != '/')).drop 1).takeWhile (· != '/')

/-- Split a name at its LAST dot: some (base, ext) when the name is
base ++ "." ++ ext with ext free of dots; none when the name has no dot. -/
def splitAtLastDot : List Char → Option (List Char × List Char)
  | [] => none
  | c :: rest =>
    match splitAtLastDot rest with
    | some (a, b) => some (c :: a, b)
    | none => if c = '.' then some ([], rest) else none

/-- compressImage.js _renameWithExtension: ext is mimeType.split("/")[1] with
its first "jpeg" replaced by "jpg"; the name's trailing /\.[^.]+$/ match (a
final dot followed by one or more non-dots) is replaced by "." + ext, and the
name is unchanged when that regex does not match. -/
def renameWithExtension (name mime : String) : String :=
  let ext := (replaceFirst "jpeg".toList "jpg".toList (secondSegment mime.toList)).asString
  match splitAtLastDot name.toList with
  | some (base, suf) =>
    if !suf.isEmpty then base.asString ++ "." ++ ext else name
  | none => name

/-- cropImage's file.name.replace(/\.[^/.]+$/, ''): strip a final extension made
of characters that are neither dots nor slashes; unchanged when no match. -/
def cropStripName (name : String) : String :=
  match splitAtLastDot name.toList with
  | some (base, suf) =>
    if !suf.isEmpty && !suf.contains '/' then base.asString else name
  | none => name

/-- cropImage's output extension: mimeType.split('/')[1] || 'png', then
'jpeg' mapped to 'jpg'. -/
def cropExt (mime : String) : String :=
  let e := secondSegment mime.toList
  let e2 := if e.isEmpty then "png".toList else e
  (if e2 = "jpeg".toList then "jpg".toList else e2).asString

/-- The output file name cropImage builds (both the modular and bundled
versions build it the same way): originalName stripped of its extension, a
dot, and the extension derived from the output media type. -/
def cropOutputName (name mime : String) : String :=
  cropStripName name ++ "." ++ cropExt mime

/-- Canvas width/height are unsigned longs; a nonnegative rational pixel value
is truncated toward zero when assigned. -/
def qToCanvas (q : ℚ) : Nat := (⌊q⌋).toNat

/-- cropImage's canvasToBlob wrapper: canvas.toBlob yields null on a canvas one
of whose dimensions is zero, and the wrapper rejects null with
'Canvas toBlob failed'; otherwise the environment's encoder supplies the blob. -/
def canvasToBlobE (env : Env) (file : JSFile) (w h : Nat) (t : String)
    (q : Option ℚ) : Except JsErr Blob :=
  if w = 0 || h = 0 then .error .canvasToBlobFailed
  else .ok (env.enc file t q)

/-- The options object of compressImage.js: minQuality (default 0.3) and step
(default 0.05). -/
structure CompressOpts where
  minQuality : ℚ := 3/10
  step : ℚ := 1/20
deriving DecidableEq, Repr

/-- The lossy fallback type of compressImage.js: WebP when /png|gif/i matches
the source type, JPEG otherwise. -/
def lossyTypeOf (t : String) : String :=
  if pngGifTest t then "image/webp" else "image/jpeg"

/-- The quality-search loop of compressImage.js, with explicit fuel:
while (blob.size / 1048576 > maxMB && quality > minQuality) do
  quality = max(quality - step, minQuality); blob = toBlob(canvas, lossyType, quality).
Returns the final blob and the number of re-encodes performed. -/
def compressLoop (env : Env) (file : JSFile) (lossy : String) (maxMB : Option ℚ)
    (minQ step : ℚ) : Nat → ℚ → Blob → Blob × Nat
  | 0, _, b => (b, 0)
  | fuel + 1, q, b =>
    if jsGtQ ((b.size : ℚ) / 1048576) maxMB && decide (minQ < q) then
      let q2 := max (q - step) minQ
      let b2 := env.enc file lossy (some q2)
      let r := compressLoop env file lossy maxMB minQ step fuel q2 b2
      (r.1, r.2 + 1)
    else (b, 0)

/-- The iteration bound of the quality search: the number of decrements needed
to drive 0.95 down to minQuality at the given step. This fuel is exactly
enough: compressLoop_fuel_indep shows the loop's guard fails within it. -/
def compressFuel (minQ step : ℚ) : Nat := (⌈((19 : ℚ)/20 - minQ) / step⌉).toNat

/-- The blob the quality search of compressImage.js ends with: the initial
encode at the original type and quality 0.95, refined by the loop. -/
def searchBlob (env : Env) (file : JSFile) (maxMB : Option ℚ)
    (opts : CompressOpts) : Blob :=
  (compressLoop env file (lossyTypeOf file.type) maxMB opts.minQuality opts.step
    (compressFuel opts.minQuality opts.step) (19/20)
    (env.enc file file.type (some (19/20)))).1

/-- src/src/compressImage.js compressImage (the size-budget compressor).
The instanceof File check cannot fail in this embedding (the argument is
always a File). now is Date.now() at the time the result File is built. -/
def compressImageE (env : Env) (now : Nat) (file : JSFile) (maxMB : Option ℚ)
    (opts : CompressOpts) : Except JsErr JSFile :=
  if !jsStartsWith file.type "image/" then .error .unsupportedMediaType
  else if jsLeQ ((file.size : ℚ) / 1048576) maxMB then .ok file
  else
    match env.probe file with
    | none => .error .decodeError
    | some _ =>
      let blob := searchBlob env file maxMB opts
      let finalData := if blob.size < file.size then blob.data else file.data
      let finalType := if blob.size < file.size then blob.type else file.type
      .ok ⟨renameWithExtension file.name finalType, finalType, finalData, now⟩

/-- src/src/util.js getImageDimensions: media-type gate, then decode. -/
def getImageDimensionsE (env : Env) (file : JSFile) : Except JsErr (Nat × Nat) :=
  if !jsStartsWith file.type "image/" then .error .unsupportedMediaType
  else
    match env.probe file with
    | none => .error .decodeError
    | some wh => .ok wh

/-- src/src/util.js hasMinDimension. -/
def hasMinDimensionE (env : Env) (file : JSFile) (minW minH : Nat) :
    Except JsErr Bool :=
  if !jsStartsWith file.type "image/" then .error .unsupportedMediaType
  else
    match getImageDimensionsE env file with
    | .error e => .error e
    | .ok (w, h) => if w < minW || h < minH then .ok false else .ok true

/-- The cover scale of cropImage: max(targetW / origW, targetH / origH). -/
def coverScale (origW origH targetW targetH : Nat) : ℚ :=
  max ((targetW : ℚ) / origW) ((targetH : ℚ) / origH)

/-- newW = Math.ceil(origW * scale). -/
def coverNewW (origW origH targetW targetH : Nat) : ℤ :=
  ⌈(origW : ℚ) * coverScale origW origH targetW targetH⌉

/-- newH = Math.ceil(origH * scale). -/
def coverNewH (origW origH targetW targetH : Nat) : ℤ :=
  ⌈(origH : ℚ) * coverScale origW origH targetW targetH⌉

/-- cropX = Math.floor((newW - targetW) / 2). -/
def coverCropX (origW origH targetW targetH : Nat) : ℤ :=
  ⌊((coverNewW origW origH targetW targetH : ℚ) - (targetW : ℚ)) / 2⌋

/-- cropY = Math.floor((newH - targetH) / 2). -/
def coverCropY (origW origH targetW targetH : Nat) : ℤ :=
  ⌊((coverNewH origW origH targetW targetH : ℚ) - (targetH : ℚ)) / 2⌋

/-- The output media type of cropImage: the source type, unless it is empty or
image/svg+xml, in which case image/png. -/
def cropMimeType (t : String) : String :=
  if t = "" || t = "image/svg+xml" then "image/png" else t

/-- src/src/cropImage.js cropImage: the modular cover-crop. Decoding the image
element is modelled by env.probe (rejection = 'Image load error'); the canvas
geometry is computed exactly as in the source, and the final toBlob goes
through the null-rejecting wrapper on the outCanvas of dimensions
targetW x targetH. The result File gets a fresh lastModified (now), as
new File(...) without an explicit lastModified does. -/
def cropImageS (env : Env) (now : Nat) (file : JSFile) (targetW targetH : Nat)
    (maxMbLimit : Option ℚ) : Except JsErr JSFile :=
  if !jsStartsWith file.type "image/" then .error .unsupportedMediaType
  else
    match env.probe file with
    | none => .error .imageLoadError
    | some (origW, origH) =>
      -- The resize-and-crop geometry of the source; it feeds only the canvas
      -- drawing, which the Env abstracts, so these values are not observable
      -- in the result beyond the out-canvas dimensions targetW x targetH.
      let _scale := coverScale origW origH targetW targetH
      let _newW := coverNewW origW origH targetW targetH
      let _newH := coverNewH origW origH targetW targetH
      let _cropX := coverCropX origW origH targetW targetH
      let _cropY := coverCropY origW origH targetW targetH
      let mimeType := cropMimeType file.type
      let quality : Option ℚ := if mimeType = "image/jpeg" then some (9/10) else none
      match canvasToBlobE env file targetW targetH mimeType quality with
      | .error e => .error e
      | .ok blob =>
        let croppedFile : JSFile :=
          ⟨cropOutputName file.name mimeType, mimeType, blob.data, now⟩
        if truthyQ maxMbLimit then compressImageE env now croppedFile maxMbLimit {}
        else .ok croppedFile

/-- src/unnamed/part_002 cropImage: the bundled orchestrator. Branches, in
source order: media-type gate; no-op when both targets are falsy; probe; the
"already fits" branch (width <= targetW || height <= targetH) with its size
check against maxMB; otherwise the full cover-crop with per-axis scale
resolution and an optional PostCrop compression pass. -/
def cropImageB (env : Env) (now : Nat) (file : JSFile)
    (targetW targetH : Option Nat) (maxMB : Option ℚ) : Except JsErr JSFile :=
  if !jsStartsWith file.type "image/" then .error .unsupportedMediaType
  else if !truthyN targetH && !truthyN targetW then .ok file
  else
    match env.probe file with
    | none => .error .decodeError
    | some (width, height) =>
      if jsLeN width targetW || jsLeN height targetH then
        if jsLtQ ((file.size : ℚ) / 1024 / 1024) maxMB then .ok file
        else compressImageE env now file maxMB {}
      else
        match env.probe file with
        | none => .error .imageLoadError
        | some (origW, origH) =>
          let scaleX : ℚ := if truthyN targetW then ((targetW.getD 0 : Nat) : ℚ) / origW else 0
          let scaleY : ℚ := if truthyN targetH then ((targetH.getD 0 : Nat) : ℚ) / origH else 0
          let scale : ℚ := max scaleX scaleY
          let tW : ℚ := if truthyN targetW then ((targetW.getD 0 : Nat) : ℚ) else scale * origW
          let tH : ℚ := if truthyN targetH then ((targetH.getD 0 : Nat) : ℚ) else scale * origH
          let mimeType := cropMimeType file.type
          let quality : Option ℚ := if mimeType = "image/jpeg" then some (9/10) else none
          match canvasToBlobE env file (qToCanvas tW) (qToCanvas tH) mimeType quality with
          | .error e => .error e
          | .ok blob =>
            let croppedFile : JSFile :=
              ⟨cropOutputName file.name mimeType, mimeType, blob.data, now⟩
            if truthyQ maxMB then compressImageE env now croppedFile maxMB {}
            else .ok croppedFile

/-! ## Helper lemmas -/

/-- splitAtLastDot finds nothing in a dot-free name. -/
theorem splitAtLastDot_eq_none (l : List Char) (h : '.' ∉ l) :
    splitAtLastDot l = none := by
  induction l with
  | nil => rfl
  | cons c rest ih =>
    have hc : c ≠ '.' := fun hcc => h (hcc ▸ List.mem_cons_self c rest)
    have hr : '.' ∉ rest := fun hm => h (List.mem_cons_of_mem c hm)
    simp [splitAtLastDot, ih hr, hc]

/-- A compressLoop whose guard is false returns its blob unchanged with zero
re-encodes, whatever the fuel. -/
theorem compressLoop_guard_false (env : Env) (file : JSFile) (lossy : String)
    (maxMB : Option ℚ) (minQ step q : ℚ) (b : Blob)
    (h : (jsGtQ ((b.size : ℚ) / 1048576) maxMB && decide (minQ < q)) = false) :
    ∀ fuel, compressLoop env file lossy maxMB minQ step fuel q b = (b, 0) := by
  intro fuel
  cases fuel <;> simp [compressLoop, h]

/-- With no byte budget the loop's guard is false at once, so the quality
search ends with the initial encode at the original type and quality 0.95. -/
theorem searchBlob_none (env : Env) (file : JSFile) (opts : CompressOpts) :
    searchBlob env file none opts = env.enc file file.type (some (19/20)) := by
  unfold searchBlob
  rw [compressLoop_guard_false _ _ _ _ _ _ _ _ (by simp [jsGtQ])]

/-- cropMimeType preserves the image/ media-type gate. -/
theorem cropMimeType_image (t : String) (h : jsStartsWith t "image/" = true) :
    jsStartsWith (cropMimeType t) "image/" = true := by
  unfold cropMimeType
  split
  · decide
  · exact h

/-! ## Claim C4 -/

/-- Claim C4: when the file's byte size already satisfies the budget
(file.size / 1048576 <= maxMB), compressImage returns the input File itself.
The environment env is universally quantified and unused on this path, so no
decode and no re-encode happens. -/
theorem compressImage_skip_under_budget (env : Env) (now : Nat) (file : JSFile)
    (m : ℚ) (opts : CompressOpts)
    (hpre : jsStartsWith file.type "image/" = true)
    (hsize : (file.size : ℚ) / 1048576 ≤ m) :
    compressImageE env now file (some m) opts = Except.ok file := by
  simp [compressImageE, hpre, jsLeQ, hsize]

/-- Witness for claim C4 at a concrete 3-byte PNG under a 1 MiB budget. -/
theorem compressImage_skip_under_budget_witness :
    jsStartsWith "image/png" "image/" = true ∧
    ((JSFile.size ⟨"a.png", "image/png", [1, 2, 3], 0⟩ : ℚ) / 1048576 ≤ 1) ∧
    compressImageE ⟨fun _ => none, fun _ t _ => ⟨[], t⟩⟩ 0
        ⟨"a.png", "image/png", [1, 2, 3], 0⟩ (some 1) {}
      = Except.ok ⟨"a.png", "image/png", [1, 2, 3], 0⟩ :=
  ⟨by decide, by norm_num [JSFile.size],
    compressImage_skip_under_budget _ _ _ _ _ (by decide) (by norm_num [JSFile.size])⟩

/-! ## Claim C2 -/

/-- Claim C2: whenever compressImage returns a File, its byte length is at most
the byte length of the input; the operation never enlarges. -/
theorem compressImage_never_enlarges (env : Env) (now : Nat) (file : JSFile)
    (maxMB : Option ℚ) (opts : CompressOpts) (out : JSFile)
    (h : compressImageE env now file maxMB opts = Except.ok out) :
    out.size ≤ file.size := by
  unfold compressImageE at h
  split at h
  · exact absurd h (by simp)
  · split at h
    · simp only [Except.ok.injEq] at h
      subst h
      exact le_refl _
    · split at h
      · exact absurd h (by simp)
      · simp only [Except.ok.injEq] at h
        subst h
        simp only [JSFile.size, Blob.size]
        split
        · next hlt => exact le_of_lt hlt
        · exact le_refl _

/-- Witness for claim C2 at a concrete input where compressImage returns a
File (the degenerate unbudgeted call, whose search stops at once). -/
theorem compressImage_never_enlarges_witness :
    compressImageE ⟨fun _ => some (1, 1), fun _ t _ => ⟨[], t⟩⟩ 0
        ⟨"b.png", "image/png", [1], 0⟩ none {}
      = Except.ok ⟨"b.png", "image/png", [], 0⟩ ∧
    JSFile.size ⟨"b.png", "image/png", [], 0⟩ ≤
      JSFile.size ⟨"b.png", "image/png", [1], 0⟩ := by
  have hEval : compressImageE ⟨fun _ => some (1, 1), fun _ t _ => ⟨[], t⟩⟩ 0
      ⟨"b.png", "image/png", [1], 0⟩ none {}
      = Except.ok ⟨"b.png", "image/png", [], 0⟩ := by
    have hpre : jsStartsWith "image/png" "image/" = true := by decide
    simp only [compressImageE, hpre, Bool.not_true, jsLeQ, searchBlob_none]
    decide
  exact ⟨hEval,
    compressImage_never_enlarges ⟨fun _ => some (1, 1), fun _ t _ => ⟨[], t⟩⟩ 0
      ⟨"b.png", "image/png", [1], 0⟩ none {} ⟨"b.png", "image/png", [], 0⟩ hEval⟩

/-! ## Claim C9 -/

/-- Claim C9: hasMinDimension answers true exactly when the probed width is at
least minW and the probed height is at least minH. -/
theorem hasMinDimension_iff (env : Env) (file : JSFile) (minW minH w h : Nat)
    (hpre : jsStartsWith file.type "image/" = true)
    (hprobe : env.probe file = some (w, h)) :
    (hasMinDimensionE env file minW minH = Except.ok true ↔ (minW ≤ w ∧ minH ≤ h)) := by
  simp only [hasMinDimensionE, getImageDimensionsE, hpre, Bool.not_true,
    Bool.false_eq_true, if_false, hprobe]
  by_cases hc : w < minW ∨ h < minH
  · have : (decide (w < minW) || decide (h < minH)) = true := by
      rcases hc with hc | hc <;> simp [hc]
    simp only [this, if_true]
    constructor
    · intro habs
      exact absurd habs (by simp)
    · intro hle
      omega
  · have : (decide (w < minW) || decide (h < minH)) = false := by
      push_neg at hc
      simp [hc.1, hc.2, Nat.not_lt.mpr hc.1, Nat.not_lt.mpr hc.2]
    simp only [this, Bool.false_eq_true, if_false, true_iff]
    push_neg at hc
    omega

/-- Witness for claim C9: a 10 x 20 image against thresholds 5 and 7. -/
theorem hasMinDimension_iff_witness :
    jsStartsWith "image/png" "image/" = true ∧
    (hasMinDimensionE ⟨fun _ => some (10, 20), fun _ t _ => ⟨[], t⟩⟩
        ⟨"c.png", "image/png", [1], 0⟩ 5 7 = Except.ok true ↔ (5 ≤ 10 ∧ 7 ≤ 20)) :=
  ⟨by decide,
    hasMinDimension_iff ⟨fun _ => some (10, 20), fun _ t _ => ⟨[], t⟩⟩
      ⟨"c.png", "image/png", [1], 0⟩ 5 7 10 20 (by decide) rfl⟩

/-! ## Claim C10 -/

/-- Claim C10: on a name with no dot, the compressor's extension rewriting
(_renameWithExtension) leaves the name unchanged for every media type, while
cropImage's name construction appends a dot and the extension derived from the
media subtype. -/
theorem rename_no_dot (name mime : String) (h : '.' ∉ name.toList) :
    renameWithExtension name mime = name ∧
    cropOutputName name mime = name ++ "." ++ cropExt mime := by
  have hnone : splitAtLastDot name.data = none := splitAtLastDot_eq_none name.toList h
  constructor
  · simp [renameWithExtension, hnone]
  · simp [cropOutputName, cropStripName, hnone]

/-- Witness for claim C10 on the dot-free name noext with a WebP output type. -/
theorem rename_no_dot_witness :
    '.' ∉ "noext".toList ∧
    renameWithExtension "noext" "image/webp" = "noext" ∧
    cropOutputName "noext" "image/webp" = "noext" ++ "." ++ cropExt "image/webp" :=
  ⟨by decide, (rename_no_dot "noext" "image/webp" (by decide)).1,
    (rename_no_dot "noext" "image/webp" (by decide)).2⟩

/-! ## Claim C6 -/

/-- Claim C6: with positive source and target dimensions, the cover resize is
at least as large as the target on both axes, and both center-crop offsets are
nonnegative. -/
theorem coverCrop_invariant (origW origH targetW targetH : Nat)
    (hW : 1 ≤ origW) (hH : 1 ≤ origH) (htW : 1 ≤ targetW) (htH : 1 ≤ targetH) :
    (targetW : ℤ) ≤ coverNewW origW origH targetW targetH ∧
    (targetH : ℤ) ≤ coverNewH origW origH targetW targetH ∧
    0 ≤ coverCropX origW origH targetW targetH ∧
    0 ≤ coverCropY origW origH targetW targetH := by
  have hoW : (0 : ℚ) < origW := by exact_mod_cast hW
  have hoH : (0 : ℚ) < origH := by exact_mod_cast hH
  have hsW : (targetW : ℚ) ≤ (origW : ℚ) * coverScale origW origH targetW targetH := by
    have hmax := le_max_left ((targetW : ℚ) / origW) ((targetH : ℚ) / origH)
    calc (targetW : ℚ) = (origW : ℚ) * ((targetW : ℚ) / origW) := by
          field_simp
      _ ≤ (origW : ℚ) * coverScale origW origH targetW targetH :=
          mul_le_mul_of_nonneg_left hmax (le_of_lt hoW)
  have hsH : (targetH : ℚ) ≤ (origH : ℚ) * coverScale origW origH targetW targetH := by
    have hmax := le_max_right ((targetW : ℚ) / origW) ((targetH : ℚ) / origH)
    calc (targetH : ℚ) = (origH : ℚ) * ((targetH : ℚ) / origH) := by
          field_simp
      _ ≤ (origH : ℚ) * coverScale origW origH targetW targetH :=
          mul_le_mul_of_nonneg_left hmax (le_of_lt hoH)
  have hW2 : (targetW : ℤ) ≤ coverNewW origW origH targetW targetH := by
    have : ((targetW : ℤ) : ℚ) ≤ (⌈(origW : ℚ) * coverScale origW origH targetW targetH⌉ : ℚ) :=
      le_trans (by exact_mod_cast hsW) (Int.le_ceil _)
    exact_mod_cast this
  have hH2 : (targetH : ℤ) ≤ coverNewH origW origH targetW targetH := by
    have : ((targetH : ℤ) : ℚ) ≤ (⌈(origH : ℚ) * coverScale origW origH targetW targetH⌉ : ℚ) :=
      le_trans (by exact_mod_cast hsH) (Int.le_ceil _)
    exact_mod_cast this
  refine ⟨hW2, hH2, ?_, ?_⟩
  · apply Int.floor_nonneg.mpr
    have : ((targetW : ℤ) : ℚ) ≤ ((coverNewW origW origH targetW targetH : ℤ) : ℚ) := by
      exact_mod_cast hW2
    have hnum : (0 : ℚ) ≤ (coverNewW origW origH targetW targetH : ℚ) - (targetW : ℚ) := by
      push_cast at this ⊢
      linarith
    positivity
  · apply Int.floor_nonneg.mpr
    have : ((targetH : ℤ) : ℚ) ≤ ((coverNewH origW origH targetW targetH : ℤ) : ℚ) := by
      exact_mod_cast hH2
    have hnum : (0 : ℚ) ≤ (coverNewH origW origH targetW targetH : ℚ) - (targetH : ℚ) := by
      push_cast at this ⊢
      linarith
    positivity

/-- Witness for claim C6 at a 4000 x 3000 source and an 800 x 600 target. -/
theorem coverCrop_invariant_witness :
    (1 ≤ 4000 ∧ 1 ≤ 3000 ∧ 1 ≤ 800 ∧ 1 ≤ 600) ∧
    ((800 : ℤ) ≤ coverNewW 4000 3000 800 600 ∧
     (600 : ℤ) ≤ coverNewH 4000 3000 800 600 ∧
     0 ≤ coverCropX 4000 3000 800 600 ∧
     0 ≤ coverCropY 4000 3000 800 600) :=
  ⟨by omega,
    coverCrop_invariant 4000 3000 800 600 (by omega) (by omega) (by omega) (by omega)⟩

/-! ## Claim C7 -/

/-- Claim C7, counterexample: the modular cropImage (src/src/cropImage.js) has
no no-op branch; with both targets zero it builds a zero-sized output canvas,
whose toBlob yields null, so the call rejects with 'Canvas toBlob failed'
instead of returning the input unchanged. -/
theorem cropImageS_zero_targets_counterexample :
    cropImageS ⟨fun _ => some (2, 2), fun _ t _ => ⟨[0], t⟩⟩ 7
        ⟨"x.png", "image/png", [1, 2], 0⟩ 0 0 none
      = Except.error JsErr.canvasToBlobFailed ∧
    cropImageS ⟨fun _ => some (2, 2), fun _ t _ => ⟨[0], t⟩⟩ 7
        ⟨"x.png", "image/png", [1, 2], 0⟩ 0 0 none
      ≠ Except.ok ⟨"x.png", "image/png", [1, 2], 0⟩ := by
  constructor
  · rfl
  · intro habs
    rw [show cropImageS ⟨fun _ => some (2, 2), fun _ t _ => ⟨[0], t⟩⟩ 7
        ⟨"x.png", "image/png", [1, 2], 0⟩ 0 0 none
        = Except.error JsErr.canvasToBlobFailed from rfl] at habs
    exact Except.noConfusion habs

/-- Claim C7, amended: the bundled orchestrator cropImage does return the input
File unchanged whenever both targets are absent or zero (the modular
src/cropImage.js does not, as the counterexample shows). -/
theorem cropImageB_noop_falsy_targets (env : Env) (now : Nat) (file : JSFile)
    (tW tH : Option Nat) (maxMB : Option ℚ)
    (hpre : jsStartsWith file.type "image/" = true)
    (hW : truthyN tW = false) (hH : truthyN tH = false) :
    cropImageB env now file tW tH maxMB = Except.ok file := by
  simp [cropImageB, hpre, hW, hH]

/-- Witness for the amended claim C7 with both targets absent. -/
theorem cropImageB_noop_falsy_targets_witness :
    jsStartsWith "image/png" "image/" = true ∧
    truthyN none = false ∧
    cropImageB ⟨fun _ => some (2, 2), fun _ t _ => ⟨[0], t⟩⟩ 7
        ⟨"x.png", "image/png", [1, 2], 0⟩ none none none
      = Except.ok ⟨"x.png", "image/png", [1, 2], 0⟩ :=
  ⟨by decide, rfl,
    cropImageB_noop_falsy_targets ⟨fun _ => some (2, 2), fun _ t _ => ⟨[0], t⟩⟩ 7
      ⟨"x.png", "image/png", [1, 2], 0⟩ none none none (by decide) rfl rfl⟩

/-! ## Claim C1 -/

/-- Claim C1: in the bundled orchestrator's "already fits" branch, an unset
maxMB does NOT short-circuit: file.size / 1024 / 1024 < undefined is false in
JS, so the code falls through and invokes the Size-Budget Compressor with an
undefined budget, which re-encodes once at quality 0.95 and can return
different bytes. At a 100 x 100 source with targetW = 200 and no maxMB, the
result is exactly the compressor's output and is not the unchanged source. -/
theorem cropImageB_unset_budget_bug :
    cropImageB ⟨fun _ => some (100, 100), fun _ t _ => ⟨[9], t⟩⟩ 5
        ⟨"a.png", "image/png", [1, 2, 3], 0⟩ (some 200) none none
      = compressImageE ⟨fun _ => some (100, 100), fun _ t _ => ⟨[9], t⟩⟩ 5
          ⟨"a.png", "image/png", [1, 2, 3], 0⟩ none {} ∧
    cropImageB ⟨fun _ => some (100, 100), fun _ t _ => ⟨[9], t⟩⟩ 5
        ⟨"a.png", "image/png", [1, 2, 3], 0⟩ (some 200) none none
      = Except.ok ⟨"a.png", "image/png", [9], 5⟩ ∧
    Except.ok ⟨"a.png", "image/png", [9], 5⟩
      ≠ (Except.ok ⟨"a.png", "image/png", [1, 2, 3], 0⟩ : Except JsErr JSFile) := by
  have h1 : cropImageB ⟨fun _ => some (100, 100), fun _ t _ => ⟨[9], t⟩⟩ 5
      ⟨"a.png", "image/png", [1, 2, 3], 0⟩ (some 200) none none
      = compressImageE ⟨fun _ => some (100, 100), fun _ t _ => ⟨[9], t⟩⟩ 5
          ⟨"a.png", "image/png", [1, 2, 3], 0⟩ none {} := rfl
  have h2 : compressImageE ⟨fun _ => some (100, 100), fun _ t _ => ⟨[9], t⟩⟩ 5
      ⟨"a.png", "image/png", [1, 2, 3], 0⟩ none {}
      = Except.ok ⟨"a.png", "image/png", [9], 5⟩ := by
    have hpre : jsStartsWith "image/png" "image/" = true := by decide
    simp only [compressImageE, hpre, Bool.not_true, jsLeQ, searchBlob_none]
    decide
  exact ⟨h1, h1.trans h2, by decide⟩

/-! ## Claim C8 -/

/-- compressImage with an image-typed input never throws the media-type error. -/
theorem compressImageE_ne_unsupported (env : Env) (now : Nat) (file : JSFile)
    (maxMB : Option ℚ) (opts : CompressOpts)
    (hpre : jsStartsWith file.type "image/" = true) :
    compressImageE env now file maxMB opts ≠ Except.error JsErr.unsupportedMediaType := by
  intro habs
  simp only [compressImageE, hpre, Bool.not_true, Bool.false_eq_true, if_false] at habs
  split at habs
  · exact Except.noConfusion habs
  · split at habs
    · simp at habs
    · simp at habs

/-- The modular cropImage with an image-typed input never throws the
media-type error, on any of its paths (including the PostCrop compression on
the cropped file, whose media type still has the image/ prefix). -/
theorem cropImageS_ne_unsupported (env : Env) (now : Nat) (file : JSFile)
    (tW tH : Nat) (maxMbLimit : Option ℚ)
    (hpre : jsStartsWith file.type "image/" = true) :
    cropImageS env now file tW tH maxMbLimit ≠ Except.error JsErr.unsupportedMediaType := by
  intro habs
  simp only [cropImageS, hpre, Bool.not_true, Bool.false_eq_true, if_false] at habs
  split at habs
  · simp at habs
  · simp only [canvasToBlobE] at habs
    split at habs
    · rename_i e heq
      split at heq
      · simp only [Except.error.injEq] at heq
        subst heq
        simp at habs
      · exact Except.noConfusion heq
    · split at habs
      · exact compressImageE_ne_unsupported env now _ maxMbLimit {}
          (cropMimeType_image file.type hpre) habs
      · exact Except.noConfusion habs

/-- hasMinDimension with an image-typed input never throws the media-type error. -/
theorem hasMinDimensionE_ne_unsupported (env : Env) (file : JSFile)
    (minW minH : Nat) (hpre : jsStartsWith file.type "image/" = true) :
    hasMinDimensionE env file minW minH ≠ Except.error JsErr.unsupportedMediaType := by
  intro habs
  simp only [hasMinDimensionE, getImageDimensionsE, hpre, Bool.not_true,
    Bool.false_eq_true, if_false] at habs
  split at habs
  · rename_i e heq
    split at heq
    · simp only [Except.error.injEq] at heq
      subst heq
      simp at habs
    · exact Except.noConfusion heq
  · split at habs
    · exact Except.noConfusion habs
    · exact Except.noConfusion habs

/-- Claim C8: each public operation throws 'Only image files are supported'
exactly when the declared media type does not start with image/; with the
prefix present, that error is never raised on any path. -/
theorem unsupported_error_iff (env : Env) (now : Nat) (file : JSFile)
    (minW minH : Nat) (maxMB : Option ℚ) (opts : CompressOpts)
    (tW tH : Nat) (maxMbLimit : Option ℚ) :
    (getImageDimensionsE env file = Except.error JsErr.unsupportedMediaType
        ↔ jsStartsWith file.type "image/" = false) ∧
    (compressImageE env now file maxMB opts = Except.error JsErr.unsupportedMediaType
        ↔ jsStartsWith file.type "image/" = false) ∧
    (cropImageS env now file tW tH maxMbLimit = Except.error JsErr.unsupportedMediaType
        ↔ jsStartsWith file.type "image/" = false) ∧
    (hasMinDimensionE env file minW minH = Except.error JsErr.unsupportedMediaType
        ↔ jsStartsWith file.type "image/" = false) := by
  cases hpre : jsStartsWith file.type "image/"
  · refine ⟨?_, ?_, ?_, ?_⟩ <;>
      simp [getImageDimensionsE, compressImageE, cropImageS, hasMinDimensionE, hpre]
  · refine ⟨?_, ?_, ?_, ?_⟩
    · constructor
      · intro habs
        simp only [getImageDimensionsE, hpre, Bool.not_true, Bool.false_eq_true,
          if_false] at habs
        split at habs <;> simp at habs
      · intro habs
        exact absurd habs (by simp)
    · constructor
      · intro habs
        exact absurd habs (compressImageE_ne_unsupported env now file maxMB opts hpre)
      · intro habs
        exact absurd habs (by simp)
    · constructor
      · intro habs
        exact absurd habs (cropImageS_ne_unsupported env now file tW tH maxMbLimit hpre)
      · intro habs
        exact absurd habs (by simp)
    · constructor
      · intro habs
        exact absurd habs (hasMinDimensionE_ne_unsupported env file minW minH hpre)
      · intro habs
        exact absurd habs (by simp)

/-! ## Claim C3 -/

/-- Claim C3, counterexample: even when the quality search ends with a blob no
smaller than the source (here 5 bytes against 3), compressImage does not hand
back the same File: it re-wraps the original bytes in a new File whose name
has its extension rewritten (a.jpeg becomes a.jpg) and whose lastModified is
Date.now() (99, not the original 0). -/
theorem compressImage_rewrap_counterexample :
    JSFile.size ⟨"a.jpeg", "image/jpeg", [1, 1, 1], 0⟩
      ≤ Blob.size (searchBlob ⟨fun _ => some (1, 1), fun _ t _ => ⟨[2, 2, 2, 2, 2], t⟩⟩
          ⟨"a.jpeg", "image/jpeg", [1, 1, 1], 0⟩ (some (1/1048576)) ⟨19/20, 1/20⟩) ∧
    compressImageE ⟨fun _ => some (1, 1), fun _ t _ => ⟨[2, 2, 2, 2, 2], t⟩⟩ 99
        ⟨"a.jpeg", "image/jpeg", [1, 1, 1], 0⟩ (some (1/1048576)) ⟨19/20, 1/20⟩
      = Except.ok ⟨"a.jpg", "image/jpeg", [1, 1, 1], 99⟩ ∧
    compressImageE ⟨fun _ => some (1, 1), fun _ t _ => ⟨[2, 2, 2, 2, 2], t⟩⟩ 99
        ⟨"a.jpeg", "image/jpeg", [1, 1, 1], 0⟩ (some (1/1048576)) ⟨19/20, 1/20⟩
      ≠ Except.ok ⟨"a.jpeg", "image/jpeg", [1, 1, 1], 0⟩ := by
  have hsearch : searchBlob ⟨fun _ => some (1, 1), fun _ t _ => ⟨[2, 2, 2, 2, 2], t⟩⟩
      ⟨"a.jpeg", "image/jpeg", [1, 1, 1], 0⟩ (some (1/1048576)) ⟨19/20, 1/20⟩
      = ⟨[2, 2, 2, 2, 2], "image/jpeg"⟩ := by
    unfold searchBlob
    rw [compressLoop_guard_false _ _ _ _ _ _ _ _ (by simp)]
  have hle : jsLeQ ((JSFile.size ⟨"a.jpeg", "image/jpeg", [1, 1, 1], 0⟩ : ℚ) / 1048576)
      (some (1/1048576)) = false := by
    simp only [jsLeQ, JSFile.size, List.length_cons, List.length_nil, decide_eq_false_iff_not]
    norm_num
  have heval : compressImageE ⟨fun _ => some (1, 1), fun _ t _ => ⟨[2, 2, 2, 2, 2], t⟩⟩ 99
      ⟨"a.jpeg", "image/jpeg", [1, 1, 1], 0⟩ (some (1/1048576)) ⟨19/20, 1/20⟩
      = Except.ok ⟨"a.jpg", "image/jpeg", [1, 1, 1], 99⟩ := by
    have hpre : jsStartsWith "image/jpeg" "image/" = true := by decide
    simp only [compressImageE, hpre, Bool.not_true, Bool.false_eq_true, if_false, hle, hsearch]
    decide
  refine ⟨?_, heval, ?_⟩
  · rw [hsearch]
    decide
  · rw [heval]
    intro habs
    simp at habs
  
/-- Claim C3, amended: when the search's best candidate is no smaller than the
source, compressImage keeps the source's bytes and media type, but returns a
NEW File whose name has its extension rewritten from the media type and whose
lastModified is Date.now(). -/
theorem compressImage_no_smaller_rewraps (env : Env) (now : Nat) (file : JSFile)
    (maxMB : Option ℚ) (opts : CompressOpts) (wh : Nat × Nat)
    (hpre : jsStartsWith file.type "image/" = true)
    (hover : jsLeQ ((file.size : ℚ) / 1048576) maxMB = false)
    (hprobe : env.probe file = some wh)
    (hbig : file.size ≤ (searchBlob env file maxMB opts).size) :
    compressImageE env now file maxMB opts =
      Except.ok ⟨renameWithExtension file.name file.type, file.type, file.data, now⟩ := by
  have hnl : ¬ (searchBlob env file maxMB opts).size < file.size := not_lt.mpr hbig
  simp only [compressImageE, hpre, Bool.not_true, Bool.false_eq_true, if_false, hover,
    hprobe, hnl, if_false]

/-- Witness for the amended claim C3 at the counterexample's input. -/
theorem compressImage_no_smaller_rewraps_witness :
    jsStartsWith "image/jpeg" "image/" = true ∧
    jsLeQ ((JSFile.size ⟨"a.jpeg", "image/jpeg", [1, 1, 1], 0⟩ : ℚ) / 1048576)
      (some (1/1048576)) = false ∧
    JSFile.size ⟨"a.jpeg", "image/jpeg", [1, 1, 1], 0⟩
      ≤ Blob.size (searchBlob ⟨fun _ => some (1, 1), fun _ t _ => ⟨[2, 2, 2, 2, 2], t⟩⟩
          ⟨"a.jpeg", "image/jpeg", [1, 1, 1], 0⟩ (some (1/1048576)) ⟨19/20, 1/20⟩) ∧
    compressImageE ⟨fun _ => some (1, 1), fun _ t _ => ⟨[2, 2, 2, 2, 2], t⟩⟩ 99
        ⟨"a.jpeg", "image/jpeg", [1, 1, 1], 0⟩ (some (1/1048576)) ⟨19/20, 1/20⟩
      = Except.ok ⟨renameWithExtension "a.jpeg" "image/jpeg", "image/jpeg", [1, 1, 1], 99⟩ := by
  have hsearch : searchBlob ⟨fun _ => some (1, 1), fun _ t _ => ⟨[2, 2, 2, 2, 2], t⟩⟩
      ⟨"a.jpeg", "image/jpeg", [1, 1, 1], 0⟩ (some (1/1048576)) ⟨19/20, 1/20⟩
      = ⟨[2, 2, 2, 2, 2], "image/jpeg"⟩ := by
    unfold searchBlob
    rw [compressLoop_guard_false _ _ _ _ _ _ _ _ (by simp)]
  have hpre : jsStartsWith "image/jpeg" "image/" = true := by decide
  have hle : jsLeQ ((JSFile.size ⟨"a.jpeg", "image/jpeg", [1, 1, 1], 0⟩ : ℚ) / 1048576)
      (some (1/1048576)) = false := by
    simp only [jsLeQ, JSFile.size, List.length_cons, List.length_nil, decide_eq_false_iff_not]
    norm_num
  have hbig : JSFile.size ⟨"a.jpeg", "image/jpeg", [1, 1, 1], 0⟩
      ≤ Blob.size (searchBlob ⟨fun _ => some (1, 1), fun _ t _ => ⟨[2, 2, 2, 2, 2], t⟩⟩
          ⟨"a.jpeg", "image/jpeg", [1, 1, 1], 0⟩ (some (1/1048576)) ⟨19/20, 1/20⟩) := by
    rw [hsearch]
    decide
  exact ⟨hpre, hle, hbig,
    compressImage_no_smaller_rewraps ⟨fun _ => some (1, 1), fun _ t _ => ⟨[2, 2, 2, 2, 2], t⟩⟩
      99 ⟨"a.jpeg", "image/jpeg", [1, 1, 1], 0⟩ (some (1/1048576)) ⟨19/20, 1/20⟩ (1, 1)
      hpre hle rfl hbig⟩

/-! ## Claim C5 -/

/-- A positive quality gap makes the remaining-step count positive. -/
theorem ceil_pos_of_lt (minQ step q : ℚ) (hstep : 0 < step) (hq : minQ < q) :
    0 < ⌈(q - minQ) / step⌉ :=
  Int.ceil_pos.mpr (div_pos (sub_pos.mpr hq) hstep)

/-- One quality decrement (with clamping at the floor) lowers the
remaining-step count by at least one. -/
theorem ceil_decrement (minQ step q : ℚ) (hstep : 0 < step) (hq : minQ < q) :
    ⌈(max (q - step) minQ - minQ) / step⌉ ≤ ⌈(q - minQ) / step⌉ - 1 := by
  rcases le_or_lt (q - step) minQ with hle | hlt
  · rw [max_eq_right hle]
    have h0 : (minQ - minQ) / step = 0 := by simp
    rw [h0, Int.ceil_zero]
    have := ceil_pos_of_lt minQ step q hstep hq
    omega
  · rw [max_eq_left hlt.le]
    have harith : (q - step - minQ) / step = (q - minQ) / step - 1 := by
      field_simp
      ring
    rw [harith, Int.ceil_sub_one]

/-- The loop's re-encode count is bounded by the remaining-step count of its
starting quality, whatever the fuel. -/
theorem compressLoop_count_le (env : Env) (file : JSFile) (lossy : String)
    (maxMB : Option ℚ) (minQ step : ℚ) (hstep : 0 < step) :
    ∀ (fuel : Nat) (q : ℚ) (b : Blob), minQ ≤ q →
      ((compressLoop env file lossy maxMB minQ step fuel q b).2 : ℤ)
        ≤ ⌈(q - minQ) / step⌉ := by
  intro fuel
  induction fuel with
  | zero =>
    intro q b hq
    simp only [compressLoop, Nat.cast_zero]
    exact Int.ceil_nonneg (div_nonneg (sub_nonneg.mpr hq) hstep.le)
  | succ n ih =>
    intro q b hq
    by_cases hc : (jsGtQ ((b.size : ℚ) / 1048576) maxMB && decide (minQ < q)) = true
    · have hq2 : minQ < q := of_decide_eq_true ((Bool.and_eq_true _ _).mp hc).2
      simp only [compressLoop, hc, if_true]
      have h1 := ih (max (q - step) minQ)
        (env.enc file lossy (some (max (q - step) minQ))) (le_max_right _ _)
      have h2 := ceil_decrement minQ step q hstep hq2
      push_cast
      push_cast at h1
      linarith
    · have hc2 : (jsGtQ ((b.size : ℚ) / 1048576) maxMB && decide (minQ < q)) = false :=
        Bool.eq_false_iff.mpr hc
      rw [compressLoop_guard_false env file lossy maxMB minQ step q b hc2]
      simp only [Nat.cast_zero]
      exact Int.ceil_nonneg (div_nonneg (sub_nonneg.mpr hq) hstep.le)

/-- The loop's result does not depend on the fuel once the fuel covers the
remaining-step count of the starting quality: the guard fails on its own
before the fuel runs out, so the loop genuinely terminates. -/
theorem compressLoop_fuel_indep (env : Env) (file : JSFile) (lossy : String)
    (maxMB : Option ℚ) (minQ step : ℚ) (hstep : 0 < step) :
    ∀ (n : Nat) (q : ℚ) (b : Blob) (m : Nat),
      ⌈(q - minQ) / step⌉ ≤ (n : ℤ) → ⌈(q - minQ) / step⌉ ≤ (m : ℤ) → minQ ≤ q →
      compressLoop env file lossy maxMB minQ step n q b
        = compressLoop env file lossy maxMB minQ step m q b := by
  intro n
  induction n with
  | zero =>
    intro q b m h0 hm hq
    have hnot : ¬ minQ < q := by
      intro hlt
      have := ceil_pos_of_lt minQ step q hstep hlt
      omega
    have hc : (jsGtQ ((b.size : ℚ) / 1048576) maxMB && decide (minQ < q)) = false := by
      simp [hnot]
    rw [compressLoop_guard_false env file lossy maxMB minQ step q b hc 0,
      compressLoop_guard_false env file lossy maxMB minQ step q b hc m]
  | succ n ih =>
    intro q b m hn hm hq
    by_cases hc : (jsGtQ ((b.size : ℚ) / 1048576) maxMB && decide (minQ < q)) = true
    · have hq2 : minQ < q := of_decide_eq_true ((Bool.and_eq_true _ _).mp hc).2
      have hpos := ceil_pos_of_lt minQ step q hstep hq2
      have hm0 : m ≠ 0 := by
        intro h0
        subst h0
        simp only [Nat.cast_zero] at hm
        omega
      obtain ⟨m2, rfl⟩ := Nat.exists_eq_succ_of_ne_zero hm0
      have hdec := ceil_decrement minQ step q hstep hq2
      have hrec := ih (max (q - step) minQ)
        (env.enc file lossy (some (max (q - step) minQ))) m2
        (by push_cast at hn ⊢; omega) (by push_cast at hm ⊢; omega) (le_max_right _ _)
      simp only [compressLoop, hc, if_true]
      rw [hrec]
    · have hc2 : (jsGtQ ((b.size : ℚ) / 1048576) maxMB && decide (minQ < q)) = false :=
        Bool.eq_false_iff.mpr hc
      rw [compressLoop_guard_false env file lossy maxMB minQ step q b hc2 (n + 1),
        compressLoop_guard_false env file lossy maxMB minQ step q b hc2 m]

/-- Claim C5: for an over-budget call with 0 < minQuality < 0.95 and step > 0,
the quality search makes at most ceil((0.95 - minQuality) / step) + 1 encode
attempts in total (the initial encode plus the loop's re-encodes), and the
loop terminates by itself: its result is the same for every fuel at least
compressFuel, the bound compressImage runs it with. -/
theorem compress_search_attempt_bound (env : Env) (file : JSFile) (maxMB : Option ℚ)
    (minQ step : ℚ) (h1 : 0 < minQ) (h2 : minQ < 19/20) (h3 : 0 < step)
    (hover : jsLeQ ((file.size : ℚ) / 1048576) maxMB = false)
    (fuel : Nat) (b0 : Blob) :
    (((compressLoop env file (lossyTypeOf file.type) maxMB minQ step fuel (19/20) b0).2 : ℤ) + 1
        ≤ ⌈((19 : ℚ)/20 - minQ) / step⌉ + 1) ∧
    (compressFuel minQ step ≤ fuel →
      compressLoop env file (lossyTypeOf file.type) maxMB minQ step fuel (19/20) b0
        = compressLoop env file (lossyTypeOf file.type) maxMB minQ step
            (compressFuel minQ step) (19/20) b0) := by
  constructor
  · have hcount := compressLoop_count_le env file (lossyTypeOf file.type) maxMB minQ step h3
      fuel (19/20) b0 h2.le
    omega
  · intro hf
    have hself : ⌈((19 : ℚ)/20 - minQ) / step⌉ ≤ (compressFuel minQ step : ℤ) :=
      Int.self_le_toNat _
    apply compressLoop_fuel_indep env file (lossyTypeOf file.type) maxMB minQ step h3
      fuel (19/20) b0 (compressFuel minQ step) ?_ hself h2.le
    have : (compressFuel minQ step : ℤ) ≤ (fuel : ℤ) := by exact_mod_cast hf
    omega

/-- Witness for claim C5: default options (minQuality 0.3, step 0.05), a 3-byte
over-budget file, fuel 20, and a first candidate of 5 bytes. -/
theorem compress_search_attempt_bound_witness :
    (0 < (3/10 : ℚ)) ∧ ((3/10 : ℚ) < 19/20) ∧ (0 < (1/20 : ℚ)) ∧
    jsLeQ ((JSFile.size ⟨"w.png", "image/png", [1, 1, 1], 0⟩ : ℚ) / 1048576)
      (some (1/1048576)) = false ∧
    ((((compressLoop ⟨fun _ => some (1, 1), fun _ t _ => ⟨[2, 2, 2, 2, 2], t⟩⟩
          ⟨"w.png", "image/png", [1, 1, 1], 0⟩
          (lossyTypeOf (JSFile.type ⟨"w.png", "image/png", [1, 1, 1], 0⟩))
          (some (1/1048576)) (3/10) (1/20) 20 (19/20) ⟨[2, 2, 2, 2, 2], "x"⟩).2 : ℤ) + 1
        ≤ ⌈((19 : ℚ)/20 - 3/10) / (1/20)⌉ + 1) ∧
      (compressFuel (3/10) (1/20) ≤ 20 →
        compressLoop ⟨fun _ => some (1, 1), fun _ t _ => ⟨[2, 2, 2, 2, 2], t⟩⟩
            ⟨"w.png", "image/png", [1, 1, 1], 0⟩
            (lossyTypeOf (JSFile.type ⟨"w.png", "image/png", [1, 1, 1], 0⟩))
            (some (1/1048576)) (3/10) (1/20) 20 (19/20) ⟨[2, 2, 2, 2, 2], "x"⟩
          = compressLoop ⟨fun _ => some (1, 1), fun _ t _ => ⟨[2, 2, 2, 2, 2], t⟩⟩
              ⟨"w.png", "image/png", [1, 1, 1], 0⟩
              (lossyTypeOf (JSFile.type ⟨"w.png", "image/png", [1, 1, 1], 0⟩))
              (some (1/1048576)) (3/10) (1/20)
              (compressFuel (3/10) (1/20)) (19/20) ⟨[2, 2, 2, 2, 2], "x"⟩)) := by
  have ha : 0 < (3/10 : ℚ) := by norm_num
  have hb : (3/10 : ℚ) < 19/20 := by norm_num
  have hcq : 0 < (1/20 : ℚ) := by norm_num
  have hd : jsLeQ ((JSFile.size ⟨"w.png", "image/png", [1, 1, 1], 0⟩ : ℚ) / 1048576)
      (some (1/1048576)) = false := by
    simp only [jsLeQ, JSFile.size, List.length_cons, List.length_nil, decide_eq_false_iff_not]
    norm_num
  exact ⟨ha, hb, hcq, hd,
    compress_search_attempt_bound ⟨fun _ => some (1, 1), fun _ t _ => ⟨[2, 2, 2, 2, 2], t⟩⟩
      ⟨"w.png", "image/png", [1, 1, 1], 0⟩ (some (1/1048576)) (3/10) (1/20)
      ha hb hcq hd 20 ⟨[2, 2, 2, 2, 2], "x"⟩⟩
